import Mathlib

/-!
Shallow embedding of the generic stack from `src/examples/12_project_ideas.rs`.

The Rust struct `Stack<T> { items: Vec<T> }` is embedded as a structure over
`List T`, where the list order matches the `Vec` order: index 0 is the bottom
of the stack and the last element is the top.  Methods taking `&mut self`
(`push`, `pop`) are embedded as state-passing functions returning the new
stack; methods taking `&self` (`peek`, `is_empty`, `size`, `print_all`) are
embedded as pure functions of the stack, and additionally as `...Op`
state-passing wrappers returning the (unchanged) state, so that
"the call does not change the stack" is a statable proposition.
-/

namespace RustTutorial

/-- Rust: `struct Stack<T> { items: Vec<T> }` -/
structure Stack (T : Type) where
  items : List T

/-- Rust: `fn new() -> Self { Stack { items: Vec::new() } }` -/
def Stack.new (T : Type) : Stack T := ⟨[]⟩

/-- Rust: `fn push(&mut self, item: T) { self.items.push(item); }` —
`Vec::push` appends at the end. -/
def Stack.push {T : Type} (s : Stack T) (item : T) : Stack T :=
  ⟨s.items ++ [item]⟩

/-- Rust: `fn pop(&mut self) -> Option<T> { self.items.pop() }` —
`Vec::pop` removes and returns the last element, or `None` when empty. -/
def Stack.pop {T : Type} (s : Stack T) : Option T × Stack T :=
  match s.items.getLast? with
  | none => (none, s)
  | some x => (some x, ⟨s.items.dropLast⟩)

/-- Rust: `fn peek(&self) -> Option<&T> { self.items.last() }` -/
def Stack.peek {T : Type} (s : Stack T) : Option T :=
  s.items.getLast?

/-- Rust: `fn is_empty(&self) -> bool { self.items.is_empty() }` -/
def Stack.is_empty {T : Type} (s : Stack T) : Bool :=
  s.items.isEmpty

/-- Rust: `fn size(&self) -> usize { self.items.len() }` -/
def Stack.size {T : Type} (s : Stack T) : Nat :=
  s.items.length

/-- Rust: `fn print_all(&self)` prints `"Stack (bottom to top): {:?}", self.items`;
the I/O-free content is the rendered line, with `f` standing for the
`Debug` formatting of a single `T` and the `Vec` debug rendering
`[a, b, c]` made explicit. -/
def Stack.print_all {T : Type} (f : T → String) (s : Stack T) : String :=
  "Stack (bottom to top): [" ++ String.intercalate ", " (s.items.map f) ++ "]"

/-- State-passing semantics of the `&self` method call `s.peek()`:
a shared borrow cannot mutate the stack, so the state component is `s`. -/
def Stack.peekOp {T : Type} (s : Stack T) : Option T × Stack T :=
  (s.peek, s)

/-- State-passing semantics of the `&self` method call `s.print_all()`. -/
def Stack.print_allOp {T : Type} (f : T → String) (s : Stack T) : String × Stack T :=
  (s.print_all f, s)

/-- Push a whole list in order (first element pushed first). -/
def Stack.pushAll {T : Type} (s : Stack T) (vs : List T) : Stack T :=
  vs.foldl Stack.push s

/-- Pop `n` times in sequence, collecting the `n` results in call order. -/
def Stack.popN {T : Type} (s : Stack T) : Nat → List (Option T) × Stack T
  | 0 => ([], s)
  | n + 1 =>
    let r := s.pop
    let rs := r.2.popN n
    (r.1 :: rs.1, rs.2)

/-- A client operation on the stack: `push x` or `pop` (result discarded). -/
inductive Op (T : Type) where
  | push (x : T)
  | pop

/-- Run a sequence of operations from a given state. -/
def Stack.runOps {T : Type} (s : Stack T) : List (Op T) → Stack T
  | [] => s
  | Op.push x :: ops => (s.push x).runOps ops
  | Op.pop :: ops => (s.pop).2.runOps ops

/-- Holds (is `true`) iff no `pop` in the sequence is ever executed on an empty stack. -/
def noEmptyPop {T : Type} (s : Stack T) : List (Op T) → Bool
  | [] => true
  | Op.push x :: ops => noEmptyPop (s.push x) ops
  | Op.pop :: ops => (!(s.size == 0)) && noEmptyPop (s.pop).2 ops

/-- Number of `push` operations in a sequence. -/
def countPush {T : Type} : List (Op T) → Nat
  | [] => 0
  | Op.push _ :: ops => countPush ops + 1
  | Op.pop :: ops => countPush ops

/-- Number of `pop` operations in a sequence. -/
def countPop {T : Type} : List (Op T) → Nat
  | [] => 0
  | Op.push _ :: ops => countPop ops
  | Op.pop :: ops => countPop ops + 1

/-- A stack state reachable from `new()` by `push`/`pop` calls. -/
inductive Reachable (T : Type) : Stack T → Prop where
  | new : Reachable T (Stack.new T)
  | push : ∀ s x, Reachable T s → Reachable T (s.push x)
  | pop : ∀ s, Reachable T s → Reachable T (s.pop).2

/- ### Basic lemmas -/

theorem Stack.pushAll_items {T : Type} (vs : List T) (s : Stack T) :
    (s.pushAll vs).items = s.items ++ vs := by
  induction vs generalizing s with
  | nil => simp [Stack.pushAll]
  | cons v vs ih =>
    show ((s.push v).pushAll vs).items = _
    rw [ih]
    simp [Stack.push]

theorem Stack.pop_push {T : Type} (s : Stack T) (x : T) :
    (s.push x).pop = (some x, s) := by
  simp [Stack.pop, Stack.push]

theorem Stack.pop_empty {T : Type} (s : Stack T) (h : s.items = []) :
    s.pop = (none, s) := by
  simp [Stack.pop, h]

theorem Stack.size_eq {T : Type} (s : Stack T) : s.size = s.items.length := rfl

/- ### Claims -/

/-- Claim C6: `new()` returns an empty stack: `size() == 0`, `is_empty() == true`,
`pop()` returns `None`, and `peek()` returns `None`. -/
theorem C6_new_is_empty (T : Type) :
    (Stack.new T).size = 0 ∧
    (Stack.new T).is_empty = true ∧
    (Stack.new T).pop = (none, Stack.new T) ∧
    (Stack.new T).peek = none := by
  refine ⟨rfl, rfl, ?_, rfl⟩
  simp [Stack.pop, Stack.new]

/-- Claim C4: for every stack state (in particular every reachable one),
`is_empty()` returns `true` iff `size() == 0`; both are embedded as pure
functions of the state, so neither has a side effect. -/
theorem C4_is_empty_iff_size_zero (T : Type) (s : Stack T) :
    Reachable T s → (s.is_empty = true ↔ s.size = 0) := by
  intro _
  simp [Stack.is_empty, Stack.size, List.isEmpty_iff_length_eq_zero]

/-- Witness for C4 at a concrete reachable state. -/
theorem C4_witness :
    (Stack.new Nat).is_empty = true ↔ (Stack.new Nat).size = 0 :=
  C4_is_empty_iff_size_zero Nat (Stack.new Nat) Reachable.new

/-- Claim C9: `pop` and `peek` are total `Option`-valued functions:
they return `None` exactly when `size() == 0` and `some` value exactly
when `size() > 0`; no panic, exception or sentinel in `T` is involved. -/
theorem C9_pop_peek_total (T : Type) (s : Stack T) :
    ((s.pop).1 = none ↔ s.size = 0) ∧
    (s.peek = none ↔ s.size = 0) ∧
    ((0 < s.size) ↔ ∃ x, (s.pop).1 = some x) ∧
    ((0 < s.size) ↔ ∃ x, s.peek = some x) := by
  cases s with
  | mk items =>
    cases items using List.reverseRecOn with
    | nil =>
      simp [Stack.pop, Stack.peek, Stack.size]
    | append_singleton l x =>
      simp [Stack.pop, Stack.peek, Stack.size]

/- ### More lemmas -/

theorem Stack.ext_items {T : Type} {s t : Stack T} (h : s.items = t.items) : s = t := by
  cases s; cases t; cases h; rfl

theorem Stack.pushAll_new {T : Type} (vs : List T) :
    (Stack.new T).pushAll vs = ⟨vs⟩ :=
  Stack.ext_items (by simp [Stack.pushAll_items, Stack.new])

theorem Stack.pop_concat {T : Type} (l : List T) (x : T) :
    (Stack.mk (l ++ [x])).pop = (some x, Stack.mk l) := by
  simp [Stack.pop]

theorem Stack.popN_all {T : Type} (l : List T) :
    (Stack.mk l).popN l.length = (l.reverse.map some, Stack.new T) := by
  induction l using List.reverseRecOn with
  | nil => simp [Stack.popN, Stack.new]
  | append_singleton l x ih =>
    rw [List.length_append]
    show ((Stack.mk (l ++ [x])).pop.1 ::
        ((Stack.mk (l ++ [x])).pop.2.popN l.length).1,
        ((Stack.mk (l ++ [x])).pop.2.popN l.length).2) = _
    rw [Stack.pop_concat]
    simp [ih]

theorem Stack.pop_items_of_ne {T : Type} (s : Stack T) (h : s.size ≠ 0) :
    (s.pop).1 = s.items.getLast? ∧ (s.pop).2.items = s.items.dropLast := by
  cases s with
  | mk items =>
    cases items using List.reverseRecOn with
    | nil => simp [Stack.size] at h
    | append_singleton l x => simp [Stack.pop_concat, Stack.pop]

theorem Stack.pop_size_of_ne {T : Type} (s : Stack T) (h : s.size ≠ 0) :
    (s.pop).2.size = s.size - 1 := by
  have := (Stack.pop_items_of_ne s h).2
  simp [Stack.size, this, List.length_dropLast]

theorem Stack.push_size {T : Type} (s : Stack T) (x : T) :
    (s.push x).size = s.size + 1 := by
  simp [Stack.push, Stack.size]

theorem runOps_size {T : Type} (ops : List (Op T)) (s : Stack T)
    (h : noEmptyPop s ops = true) :
    (s.runOps ops).size + countPop ops = s.size + countPush ops := by
  induction ops generalizing s with
  | nil => simp [Stack.runOps, countPop, countPush]
  | cons op ops ih =>
    cases op with
    | push x =>
      have hn : noEmptyPop (s.push x) ops = true := h
      have hrec := ih (s.push x) hn
      have hs := Stack.push_size s x
      show ((s.push x).runOps ops).size + (countPop ops) = s.size + (countPush ops + 1)
      omega
    | pop =>
      have h2 : (!(s.size == 0)) = true ∧ noEmptyPop (s.pop).2 ops = true := by
        simpa [noEmptyPop, Bool.and_eq_true] using h
      have hsz : s.size ≠ 0 := by
        have := h2.1
        simp at this
        exact this
      have hrec := ih (s.pop).2 h2.2
      have hs := Stack.pop_size_of_ne s hsz
      show ((s.pop).2.runOps ops).size + (countPop ops + 1) = s.size + countPush ops
      omega

/- ### Remaining claims -/

/-- Claim C1: pushing `v1..vn` in order onto a fresh stack and popping `n`
times yields `vn, ..., v1` (exact reverse order), and the next pop returns
`None`; this holds for every element type `T`. -/
theorem C1_round_trip (T : Type) (vs : List T) :
    ((Stack.new T).pushAll vs).popN vs.length = (vs.reverse.map some, Stack.new T) ∧
    ((((Stack.new T).pushAll vs).popN vs.length).2).pop = (none, Stack.new T) := by
  rw [Stack.pushAll_new]
  rw [Stack.popN_all]
  exact ⟨rfl, Stack.pop_empty _ rfl⟩

/-- Claim C2: popping a stack with `size() == 0` returns `None`, leaves the
stack unchanged (same state, `size` still 0, still empty), and any number of
repeated pops keeps returning `None` on the unchanged stack. -/
theorem C2_empty_pop_idempotent (T : Type) (s : Stack T) (h : s.size = 0) :
    s.pop = (none, s) ∧
    (s.pop).2.size = 0 ∧
    (s.pop).2.is_empty = true ∧
    ∀ n, s.popN n = (List.replicate n none, s) := by
  have hi : s.items = [] := List.length_eq_zero.mp h
  have hp : s.pop = (none, s) := Stack.pop_empty s hi
  refine ⟨hp, by rw [hp]; exact h, by rw [hp]; simp [Stack.is_empty, hi], ?_⟩
  intro n
  induction n with
  | zero => simp [Stack.popN]
  | succ n ihn =>
    show ((s.pop.1 :: (s.pop.2.popN n).1, (s.pop.2.popN n).2) :
        List (Option T) × Stack T) = _
    rw [hp]
    simp [ihn, List.replicate_succ]

/-- Witness for C2 on the concrete empty stack of naturals. -/
theorem C2_witness :
    (Stack.new Nat).pop = (none, Stack.new Nat) ∧
    (Stack.new Nat).popN 2 = (List.replicate 2 none, Stack.new Nat) := by
  have h := C2_empty_pop_idempotent Nat (Stack.new Nat) rfl
  exact ⟨h.1, h.2.2.2 2⟩

/-- Claim C3: `peek` is embedded as a pure `&self` call: it leaves the state
unchanged, a second call returns exactly the same result, `size` is
unchanged, it returns `None` on an empty stack and a view of the most
recently pushed element on a non-empty one, never removing anything. -/
theorem C3_peek_non_mutating (T : Type) (s : Stack T) (x : T) :
    s.peekOp.2 = s ∧
    s.peekOp.2.peekOp = s.peekOp ∧
    s.peekOp.2.size = s.size ∧
    (s.is_empty = true → s.peek = none) ∧
    (s.push x).peek = some x := by
  refine ⟨rfl, rfl, rfl, ?_, ?_⟩
  · intro h
    have hi : s.items = [] := by
      simpa [Stack.is_empty, List.isEmpty_iff] using h
    simp [Stack.peek, hi]
  · simp [Stack.peek, Stack.push]

/-- Witness for C3: on concrete stacks, empty peek is absent and peek after
a push sees the pushed element. -/
theorem C3_witness :
    (Stack.new Nat).peek = none ∧ ((Stack.new Nat).push 5).peek = some 5 :=
  ⟨(C3_peek_non_mutating Nat (Stack.new Nat) 5).2.2.2.1 rfl,
   (C3_peek_non_mutating Nat (Stack.new Nat) 5).2.2.2.2⟩

/-- Claim C5: running from `new()` any operation sequence with `k` pushes and
`j` pops in which no pop hits an empty stack, the final `size()` is `k - j`
(and `j ≤ k` necessarily holds). -/
theorem C5_size_invariant (T : Type) (ops : List (Op T))
    (h : noEmptyPop (Stack.new T) ops = true) :
    ((Stack.new T).runOps ops).size = countPush ops - countPop ops ∧
    countPop ops ≤ countPush ops := by
  have hrec := runOps_size ops (Stack.new T) h
  have h0 : (Stack.new T).size = 0 := rfl
  omega

/-- Witness for C5 on the concrete trace push 1, push 2, pop. -/
theorem C5_witness :
    noEmptyPop (Stack.new Nat) [Op.push 1, Op.push 2, Op.pop] = true ∧
    ((Stack.new Nat).runOps [Op.push 1, Op.push 2, Op.pop]).size =
      countPush [Op.push (1 : Nat), Op.push 2, Op.pop] -
        countPop [Op.push (1 : Nat), Op.push 2, Op.pop] := by
  refine ⟨by decide, ?_⟩
  exact (C5_size_invariant Nat [Op.push 1, Op.push 2, Op.pop] (by decide)).1

/-- Claim C7: on every non-empty stack, `pop` returns exactly the most
recently pushed element still present — the stack is `s2.push x` for the
returned `x` — removes it (the remaining state is `s2`), and ownership of
`x` is handed back as the carried value of the `some` result. -/
theorem C7_pop_lifo (T : Type) (s : Stack T) (h : s.size ≠ 0) :
    ∃ x s2, s = s2.push x ∧ s.pop = (some x, s2) ∧ s2.size = s.size - 1 := by
  cases s with
  | mk items =>
    cases items using List.reverseRecOn with
    | nil => simp [Stack.size] at h
    | append_singleton l x =>
      refine ⟨x, Stack.mk l, ?_, Stack.pop_concat l x, ?_⟩
      · simp [Stack.push]
      · simp [Stack.size]

/-- Witness for C7 on the concrete two-element stack. -/
theorem C7_witness :
    ∃ x s2, (Stack.mk [1, 2] : Stack Nat) = s2.push x ∧
      (Stack.mk [1, 2] : Stack Nat).pop = (some x, s2) ∧
      s2.size = (Stack.mk [1, 2] : Stack Nat).size - 1 :=
  C7_pop_lifo Nat (Stack.mk [1, 2]) (by decide)

/-- Claim C8: `print_all` renders all elements in push order — bottom
(least recent) to top (most recent) — in the `Vec` debug style, and as a
`&self` call it leaves the stack unchanged. -/
theorem C8_dump_bottom_to_top (T : Type) (f : T → String) (vs : List T) :
    ((Stack.new T).pushAll vs).print_all f =
      "Stack (bottom to top): [" ++ String.intercalate ", " (vs.map f) ++ "]" ∧
    ((Stack.new T).pushAll vs).print_allOp f =
      (((Stack.new T).pushAll vs).print_all f, (Stack.new T).pushAll vs) := by
  rw [Stack.pushAll_new]
  exact ⟨rfl, rfl⟩

/-- Claim C10: `push x` grows `size` by exactly 1, makes `x` the new top and
leaves every previously stored element at its position; `pop` on a non-empty
stack shrinks `size` by exactly 1, removes only the top element and leaves
all remaining elements at their positions. -/
theorem C10_frame (T : Type) (s : Stack T) (x : T) :
    (s.push x).size = s.size + 1 ∧
    (s.push x).peek = some x ∧
    (∀ i, i < s.size → (s.push x).items[i]? = s.items[i]?) ∧
    (s.size ≠ 0 →
      (s.pop).2.size = s.size - 1 ∧
      (s.pop).2.items = s.items.dropLast ∧
      ∀ i, i < s.size - 1 → (s.pop).2.items[i]? = s.items[i]?) := by
  refine ⟨Stack.push_size s x, by simp [Stack.peek, Stack.push], ?_, ?_⟩
  · intro i hi
    simp only [Stack.push]
    exact List.getElem?_append_left hi
  · intro h
    have hit := (Stack.pop_items_of_ne s h).2
    refine ⟨Stack.pop_size_of_ne s h, hit, ?_⟩
    intro i hi
    rw [hit, List.dropLast_eq_take]
    exact List.getElem?_take_of_lt (by simpa [Stack.size] using hi)

/-- Witness for C10 on the concrete stack `[1, 2]` with `x = 3`. -/
theorem C10_witness :
    ((Stack.mk [1, 2] : Stack Nat).push 3).size = (Stack.mk [1, 2] : Stack Nat).size + 1 ∧
    ((Stack.mk [1, 2] : Stack Nat).push 3).items[0]? = (Stack.mk [1, 2] : Stack Nat).items[0]? ∧
    ((Stack.mk [1, 2] : Stack Nat).pop).2.items = (Stack.mk [1, 2] : Stack Nat).items.dropLast := by
  have h := C10_frame Nat (Stack.mk [1, 2]) 3
  exact ⟨h.1, h.2.2.1 0 (by decide), (h.2.2.2 (by decide)).2.1⟩

end RustTutorial
